import Mathlib

/-!
Verification of the `uiconf` declarative-GUI decoder of `bevy_decl_egui`
(`src/model.rs`, `src/reader/{reader,error,binding}.rs`).

The embedding models the jomini text tape as an already-parsed `Node` tree
(the external `jomini` crate produces it; `TextTape::from_slice` is fallible,
which `Root.read` models by taking an `Option`).  All decoders
(`read_uiconf` impls) are translated function-by-function from the source.
Rust panics (`unwrap()` on the tape parse, `unreachable!()` arms) are modelled
by the explicit `DRes.panicked` outcome.  `f32` is modelled as `F32`
(an exact rational plus infinity): the decoders only parse numerals and
compare them, they never do float arithmetic, so exact rationals are faithful.
-/

namespace Uiconf

/-! ## Tape model (view produced by jomini's `TextTape` / `ValueReader`)

An object node carries its keyed fields, each `(key, optional operator,
value)`, plus the trailing un-keyed values (jomini's `remainder`).  An array
node carries positional values.  Operators other than plain `=` are kept as
their display string. -/

inductive Node where
  | unquoted (s : String)
  | quoted (s : String)
  | obj (fields : List (String × Option String × Node)) (rem : List Node)
  | arr (elems : List Node)

abbrev Path := List String

/-- `Reader::token_type` (reader.rs): display name of the token kind.
Only the four kinds representable in this model can occur. -/
def tokenType : Node → String
  | .unquoted _ => "unquoted scalar"
  | .quoted _ => "quoted scalar"
  | .obj _ _ => "object"
  | .arr _ => "array"

/-! ## Error enum (reader/error.rs)

`expected` of `UnknownVariant`/`UnknownField` is stored pre-joined, as in
`Error::unknown_variant`/`unknown_field` which join the accepted names with
backticked comma separation.  `ScalarError`/`DeserializeError` wrap foreign
jomini errors; we keep only the path. -/

inductive Error where
  | invalidType (actual expected : String) (path : Path)
  | invalidValue (actual expected : String) (path : Path)
  | invalidLength (actual : Nat) (expected : String) (path : Path)
  | unknownVariant (actual expected : String) (path : Path)
  | unknownField (field expected : String) (path : Path)
  | duplicateField (field : String) (path : Path)
  | missingField (field : String) (path : Path)
  | unexpectedOperator (op : String) (path : Path)
  | unexpectedRemainder (remainder : String) (path : Path)
  | deserializeError (path : Path)
  | scalarError (path : Path)
  | custom (message : String) (path : Path)
deriving DecidableEq

/-- The joining of an accepted-name list done by `Error::unknown_variant` /
`Error::unknown_field`: each name backticked, comma-separated. -/
def joinExpected (names : List String) : String :=
  String.intercalate ", " (names.map fun s => "`" ++ s ++ "`")

/-- Is the error the `Custom` variant? -/
def Error.isCustom : Error → Bool
  | .custom _ _ => true
  | _ => false

/-- Is the error the `InvalidValue` variant? -/
def Error.isInvalidValue : Error → Bool
  | .invalidValue _ _ _ => true
  | _ => false

/-! ## Decode results

Rust decoders return `Result<T, Error>` but can also panic (`unwrap`,
`unreachable!`); `DRes` makes the panic outcome explicit. -/

inductive DRes (α : Type) where
  | panicked
  | err (e : Error)
  | ok (a : α)
deriving DecidableEq

def DRes.bind : DRes α → (α → DRes β) → DRes β
  | .panicked, _ => .panicked
  | .err e, _ => .err e
  | .ok a, f => f a

instance : Monad DRes where
  pure := .ok
  bind := DRes.bind

@[simp] theorem DRes.ok_bind (a : α) (f : α → DRes β) : DRes.ok a >>= f = f a := rfl

@[simp] theorem DRes.err_bind (e : Error) (f : α → DRes β) :
    DRes.err e >>= f = DRes.err e := rfl

@[simp] theorem DRes.panicked_bind (f : α → DRes β) :
    (DRes.panicked : DRes α) >>= f = DRes.panicked := rfl

@[simp] theorem DRes.pure_eq (a : α) : (pure a : DRes α) = DRes.ok a := rfl

def DRes.map (f : α → β) : DRes α → DRes β
  | .panicked => .panicked
  | .err e => .err e
  | .ok a => .ok (f a)

/-- Did the decode fail with the `Custom` error variant? -/
def DRes.isCustomErr : DRes α → Bool
  | .err e => e.isCustom
  | _ => false

/-- Did the decode fail with the `InvalidValue` error variant? -/
def DRes.isInvalidValueErr : DRes α → Bool
  | .err e => e.isInvalidValue
  | _ => false

/-! ## Scalar parsing (jomini `Scalar::to_f64` / `to_u64` / `to_bool`)

jomini numerals: optional leading `-`, decimal digits, optionally one `.`
followed by digits.  Booleans are the tape format's `yes`/`no`. -/

def digitsVal (cs : List Char) : Nat :=
  cs.foldl (fun a c => a * 10 + (c.toNat - 48)) 0

def parseUnsignedQ (cs : List Char) : Option ℚ :=
  match cs.span (·.isDigit) with
  | (intp, []) =>
    if intp.isEmpty then none else some ((digitsVal intp : ℕ) : ℚ)
  | (intp, '.' :: frac) =>
    if intp.isEmpty || frac.isEmpty || !frac.all (·.isDigit) then none
    else some (((digitsVal intp : ℕ) : ℚ) + ((digitsVal frac : ℕ) : ℚ) / ((10 : ℚ) ^ frac.length))
  | _ => none

/-- jomini `Scalar::to_f64`, as an exact rational. -/
def parseF64 (s : String) : Option ℚ :=
  match s.data with
  | '-' :: rest => (parseUnsignedQ rest).map (fun q => -q)
  | cs => parseUnsignedQ cs

/-- jomini `Scalar::to_u64`: unsigned decimal digits. -/
def parseU64 (s : String) : Option Nat :=
  match s.data with
  | [] => none
  | cs => if cs.all (·.isDigit) then some (digitsVal cs) else none

/-- jomini `Scalar::to_bool`: the tape format uses `yes`/`no`. -/
def parseBool (s : String) : Option Bool :=
  if s = "yes" then some true else if s = "no" then some false else none

/-- `f32` values: an exact rational or positive infinity (the decoders never
do arithmetic on parsed floats, so this is exact). -/
inductive F32 where
  | num (q : ℚ)
  | inf
deriving DecidableEq

/-! ## Reader primitives (reader.rs) -/

/-- Content of a scalar token (`TextToken::Quoted`/`Unquoted`). -/
def scalarStr : Node → Option String
  | .unquoted s => some s
  | .quoted s => some s
  | _ => none

/-- `Reader::is_scalar`. -/
def isScalar (n : Node) : Bool := (scalarStr n).isSome

/-- `Reader::read_scalar` / `read_string` (a jomini scalar's `to_string` is
its text). -/
def readStringD (n : Node) (p : Path) : DRes String :=
  match scalarStr n with
  | some s => .ok s
  | none => .err (.invalidType (tokenType n) "scalar" p)

/-- First non-`=` operator among an object's fields (`read_object` rejects
any inline operator). -/
def firstOp : List (String × Option String × Node) → Option String
  | [] => none
  | (_, some op, _) :: _ => some op
  | (_, none, _) :: rest => firstOp rest

/-- `Reader::read_object`: accepts object- or array-shaped containers,
rejects inline operators and trailing un-keyed values, and yields the
`(key, value)` pairs.  (jomini's object view of a pure array has no keyed
fields: its values are all remainder.) -/
def readObjectL (n : Node) (p : Path) : DRes (List (String × Node)) :=
  match n with
  | .obj fields rem =>
    match firstOp fields with
    | some op => .err (.unexpectedOperator op p)
    | none =>
      match rem with
      | [] => .ok (fields.map fun f => (f.1, f.2.2))
      | v :: _ => .err (.unexpectedRemainder ((scalarStr v).getD "") p)
  | .arr elems =>
    match elems with
    | [] => .ok []
    | v :: _ => .err (.unexpectedRemainder ((scalarStr v).getD "") p)
  | _ => .err (.invalidType (tokenType n) "object" p)

/-- Attach positional diagnostic path segments, as `Reader::read_array` does. -/
def withIdx : List Node → Path → Nat → List (Node × Path)
  | [], _, _ => []
  | v :: rest, p, i => (v, p ++ [toString i]) :: withIdx rest p (i + 1)

/-- `Reader::read_array`: accepts object- or array-shaped containers and
yields positional children.  (jomini's array view of an object interleaves
keys and values; no decoder in the claims exercises that case.) -/
def readArrayL (n : Node) (p : Path) : DRes (List (Node × Path)) :=
  match n with
  | .arr elems => .ok (withIdx elems p 0)
  | .obj fields rem =>
    .ok (withIdx ((fields.map fun f => [Node.unquoted f.1, f.2.2]).flatten ++ rem) p 0)
  | _ => .err (.invalidType (tokenType n) "array" p)

/-! ## Primitive decoders (reader/mod.rs) -/

/-- `impl ReadUiconf for String`. -/
def stringRead (n : Node) (p : Path) : DRes String := readStringD n p

/-- `impl ReadUiconf for bool`. -/
def boolRead (n : Node) (p : Path) : DRes Bool := do
  let s ← readStringD n p
  match parseBool s with
  | some b => pure b
  | none => .err (.scalarError p)

/-- `impl ReadUiconf for f32` (`to_f64` then truncating cast, exact here). -/
def f32Read (n : Node) (p : Path) : DRes F32 := do
  let s ← readStringD n p
  match parseF64 s with
  | some q => pure (F32.num q)
  | none => .err (.scalarError p)

/-- `impl ReadUiconf for u8`: `to_u64` then checked narrowing. -/
def u8Read (n : Node) (p : Path) : DRes Nat := do
  let s ← readStringD n p
  match parseU64 s with
  | some v => if v ≤ 255 then pure v else .err (.invalidValue (toString v) "u8" p)
  | none => .err (.scalarError p)

/-- `impl<T> ReadUiconf for Vec<T>`. -/
def vecRead (rt : Node → Path → DRes α) (n : Node) (p : Path) : DRes (List α) := do
  let elems ← readArrayL n p
  elems.foldlM (fun acc (e : Node × Path) => do pure (acc ++ [← rt e.1 e.2])) []

/-! ## Enumerations (strum `EnumString` with `serialize_all = "snake_case"`) -/

def strumFind (table : List (String × α)) (s : String) : Option α :=
  (table.find? (fun kv => kv.1 == s)).map (·.2)

/-- The uniform enum decode pattern of model.rs: `read_string` then strum
`from_str`, with unmatched input reported as `UnknownVariant` carrying the
full accepted-name list.  strum matching is exact (none of the derives carry
`ascii_case_insensitive`). -/
def enumRead (table : List (String × α)) (n : Node) (p : Path) : DRes α := do
  let name ← readStringD n p
  match strumFind table name with
  | some a => pure a
  | none => .err (.unknownVariant name (joinExpected (table.map (·.1))) p)

inductive Alignment where
  | center | left | right | top | bottom
deriving DecidableEq, Fintype

def Alignment.table : List (String × Alignment) :=
  [("center", .center), ("left", .left), ("right", .right), ("top", .top), ("bottom", .bottom)]

def Alignment.VARIANTS : List String := Alignment.table.map (·.1)

def Alignment.read_uiconf (n : Node) (p : Path) : DRes Alignment :=
  enumRead Alignment.table n p

/-- strum `Display`, snake_case. -/
def Alignment.toStr : Alignment → String
  | .center => "center"
  | .left => "left"
  | .right => "right"
  | .top => "top"
  | .bottom => "bottom"

def Alignment.can_be_horizontal : Alignment → Bool
  | .center | .left | .right => true
  | _ => false

def Alignment.can_be_vertical : Alignment → Bool
  | .center | .top | .bottom => true
  | _ => false

inductive RichTextStyle where
  | small | body | monospace | button | heading | code
  | strong | weak | strikethrough | underline | italics | raised
deriving DecidableEq, Fintype

def RichTextStyle.table : List (String × RichTextStyle) :=
  [("small", .small), ("body", .body), ("monospace", .monospace),
   ("button", .button), ("heading", .heading), ("code", .code),
   ("strong", .strong), ("weak", .weak), ("strikethrough", .strikethrough),
   ("underline", .underline), ("italics", .italics), ("raised", .raised)]

def RichTextStyle.VARIANTS : List String := RichTextStyle.table.map (·.1)

def RichTextStyle.read_uiconf (n : Node) (p : Path) : DRes RichTextStyle :=
  enumRead RichTextStyle.table n p

/-- The local `Direction` enum of `Layout::read_uiconf`. -/
inductive LDirection where
  | leftToRight | rightToLeft | topDown | bottomUp
deriving DecidableEq

def LDirection.table : List (String × LDirection) :=
  [("left_to_right", .leftToRight), ("right_to_left", .rightToLeft),
   ("top_down", .topDown), ("bottom_up", .bottomUp)]

def LDirection.VARIANTS : List String := LDirection.table.map (·.1)

def LDirection.read_uiconf (n : Node) (p : Path) : DRes LDirection :=
  enumRead LDirection.table n p

/-- The local `Align` enum of `Layout::read_uiconf`. -/
inductive LAlign where
  | min | center | max
deriving DecidableEq

def LAlign.table : List (String × LAlign) :=
  [("min", .min), ("center", .center), ("max", .max)]

def LAlign.VARIANTS : List String := LAlign.table.map (·.1)

def LAlign.read_uiconf (n : Node) (p : Path) : DRes LAlign :=
  enumRead LAlign.table n p

inductive ColorName where
  | transparent | black | darkGray | gray | lightGray | white | brown
  | darkRed | red | lightRed | yellow | lightYellow | khaki | darkGreen
  | green | lightGreen | darkBlue | blue | lightBlue | gold | debugColor
  | temporaryColor
deriving DecidableEq

def ColorName.table : List (String × ColorName) :=
  [("transparent", .transparent), ("black", .black), ("dark_gray", .darkGray),
   ("gray", .gray), ("light_gray", .lightGray), ("white", .white),
   ("brown", .brown), ("dark_red", .darkRed), ("red", .red),
   ("light_red", .lightRed), ("yellow", .yellow), ("light_yellow", .lightYellow),
   ("khaki", .khaki), ("dark_green", .darkGreen), ("green", .green),
   ("light_green", .lightGreen), ("dark_blue", .darkBlue), ("blue", .blue),
   ("light_blue", .lightBlue), ("gold", .gold), ("debug_color", .debugColor),
   ("temporary_color", .temporaryColor)]

def ColorName.read_uiconf (n : Node) (p : Path) : DRes ColorName :=
  enumRead ColorName.table n p

inductive SenseKind where
  | hover | focusableNoninteractive | click | drag | clickAndDrag
deriving DecidableEq

def SenseKind.table : List (String × SenseKind) :=
  [("hover", .hover), ("focusable_noninteractive", .focusableNoninteractive),
   ("click", .click), ("drag", .drag), ("click_and_drag", .clickAndDrag)]

inductive SenseType where
  | click | drag | focusable
deriving DecidableEq

def SenseType.table : List (String × SenseType) :=
  [("click", .click), ("drag", .drag), ("focusable", .focusable)]

/-! ## egui value types (external crate, modelled structurally; the numeric
constants come from egui and are not load-bearing for any claim) -/

inductive EAlign where
  | min | center | max
deriving DecidableEq

structure Align2 where
  x : EAlign
  y : EAlign
deriving DecidableEq

structure Vec2 where
  x : F32
  y : F32
deriving DecidableEq

def Vec2.ZERO : Vec2 := ⟨.num 0, .num 0⟩

structure ERounding where
  nw : F32
  ne : F32
  se : F32
  sw : F32
deriving DecidableEq

def ERounding.ZERO : ERounding := ⟨.num 0, .num 0, .num 0, .num 0⟩

def ERounding.same (v : F32) : ERounding := ⟨v, v, v, v⟩

structure ESense where
  click : Bool
  drag : Bool
  focusable : Bool
deriving DecidableEq

/-- egui `Color32` (premultiplied 8-bit rgba). -/
structure Color32 where
  r : Nat
  g : Nat
  b : Nat
  a : Nat
deriving DecidableEq

/-- bevy `Color` produced by `Color::rgba_u8` (stored as floats in bevy; the
u8 quadruple is an exact model of the round trip done here). -/
structure BColor where
  r : Nat
  g : Nat
  b : Nat
  a : Nat
deriving DecidableEq

/-- The `From<ColorName> for egui::Color32` table (constants from egui). -/
def colorNameToColor32 : ColorName → Color32
  | .transparent => ⟨0, 0, 0, 0⟩
  | .black => ⟨0, 0, 0, 255⟩
  | .darkGray => ⟨96, 96, 96, 255⟩
  | .gray => ⟨160, 160, 160, 255⟩
  | .lightGray => ⟨220, 220, 220, 255⟩
  | .white => ⟨255, 255, 255, 255⟩
  | .brown => ⟨165, 42, 42, 255⟩
  | .darkRed => ⟨0x8B, 0, 0, 255⟩
  | .red => ⟨255, 0, 0, 255⟩
  | .lightRed => ⟨255, 128, 128, 255⟩
  | .yellow => ⟨255, 255, 0, 255⟩
  | .lightYellow => ⟨255, 255, 0xE0, 255⟩
  | .khaki => ⟨240, 230, 140, 255⟩
  | .darkGreen => ⟨0, 0x64, 0, 255⟩
  | .green => ⟨0, 255, 0, 255⟩
  | .lightGreen => ⟨0x90, 0xEE, 0x90, 255⟩
  | .darkBlue => ⟨0, 0, 0x8B, 255⟩
  | .blue => ⟨0, 0, 255, 255⟩
  | .lightBlue => ⟨0xAD, 0xD8, 0xE6, 255⟩
  | .gold => ⟨255, 215, 0, 255⟩
  | .debugColor => ⟨200, 200, 0, 128⟩
  | .temporaryColor => ⟨64, 254, 0, 255⟩

/-- `color_egui_to_bevy` (model.rs): `Color::rgba_u8` on the components. -/
def colorEguiToBevy (c : Color32) : BColor := ⟨c.r, c.g, c.b, c.a⟩

/-! ## Bindings (reader/binding.rs) -/

structure BindingRefM where
  name : String
  warned : Bool
deriving DecidableEq

/-- Rust `str::strip_prefix('@')`. -/
def stripLeadingAt (s : String) : Option String :=
  match s.data with
  | '@' :: rest => some (String.mk rest)
  | _ => none

/-- `BindingRef::read_uiconf`: only an *unquoted* scalar can form a
reference; everything after the `@` (possibly empty) becomes the name. -/
def bindingRefRead (n : Node) (p : Path) : DRes BindingRefM :=
  match n with
  | .unquoted s =>
    match stripLeadingAt s with
    | some r => .ok ⟨r, false⟩
    | none => .err (.invalidValue s "@ref" p)
  | _ => .err (.invalidType (tokenType n) "unquoted scalar" p)

inductive Binding (α : Type) where
  | ref (r : BindingRefM)
  | value (v : α)
deriving DecidableEq

/-- `Binding::map_value`. -/
def Binding.map_value (f : α → β) : Binding α → Binding β
  | .ref r => .ref r
  | .value v => .value (f v)

/-- `Binding::read_uiconf`: try the reference grammar first; on (non-panic)
failure fall back to the literal decoder. -/
def bindingRead (rt : Node → Path → DRes α) (n : Node) (p : Path) : DRes (Binding α) :=
  match bindingRefRead n p with
  | .ok b => .ok (.ref b)
  | .err _ => DRes.map .value (rt n p)
  | .panicked => .panicked

/-! ## Composite value types (model.rs) -/

def colorExpected : String := "\x7b r g b a? \x7d"

/-- `Color::read_uiconf`: named color scalar, or `{ r g b a? }` byte array.
The `Color` newtype wrapper around the bevy color is elided (it adds no
data). -/
def colorRead (n : Node) (p : Path) : DRes BColor :=
  if isScalar n then do
    let name ← ColorName.read_uiconf n p
    pure (colorEguiToBevy (colorNameToColor32 name))
  else do
    let elems ← readArrayL n p
    match elems with
    | [] => .err (.invalidLength 0 colorExpected p)
    | [e0] => do
      let _ ← u8Read e0.1 e0.2
      .err (.invalidLength 1 colorExpected p)
    | [e0, e1] => do
      let _ ← u8Read e0.1 e0.2
      let _ ← u8Read e1.1 e1.2
      .err (.invalidLength 2 colorExpected p)
    | e0 :: e1 :: e2 :: rest => do
      let r ← u8Read e0.1 e0.2
      let g ← u8Read e1.1 e1.2
      let b ← u8Read e2.1 e2.2
      match rest with
      | [] => pure ⟨r, g, b, 255⟩
      | [e3] => do
        let a ← u8Read e3.1 e3.2
        pure ⟨r, g, b, a⟩
      | e3 :: _ :: _ => do
        let _ ← u8Read e3.1 e3.2
        .err (.invalidLength 5 colorExpected p)

structure Stroke where
  width : Binding F32
  color : Binding BColor
deriving DecidableEq

def strokeExpected : String := "\x7b width color \x7d or none"

/-- `Stroke::read_uiconf`: the scalar `none` is `egui::Stroke::NONE`
(zero width, transparent); otherwise `{ width color }`.  A non-`none`
scalar falls through to `read_array` and fails there. -/
def strokeRead (n : Node) (p : Path) : DRes Stroke :=
  if (scalarStr n).isSome && ((scalarStr n).getD "") = "none" then
    .ok ⟨.value (.num 0), .value ⟨0, 0, 0, 0⟩⟩
  else do
    let elems ← readArrayL n p
    match elems with
    | [] => .err (.invalidLength 0 strokeExpected p)
    | [e0] => do
      let _ ← bindingRead f32Read e0.1 e0.2
      .err (.invalidLength 1 strokeExpected p)
    | e0 :: e1 :: rest => do
      let width ← bindingRead f32Read e0.1 e0.2
      let color ← bindingRead colorRead e1.1 e1.2
      match rest with
      | [] => pure ⟨width, color⟩
      | _ :: _ => .err (.invalidLength 3 strokeExpected p)

def roundingExpected : String := "\x7b top-left top-right bottom-right bottom-left \x7d"

/-- Rust `Result::unwrap_or` over a decode result (the corner decoders never
panic, and a panic would propagate). -/
def DRes.getOr (m : DRes α) (d : α) : DRes α :=
  match m with
  | .ok v => .ok v
  | .err _ => .ok d
  | .panicked => .panicked

/-- `Rounding::read_uiconf`: scalar `none` is zero, any other scalar is
`Rounding::same` of its numeric value; the array form walks four positional
corners — a *missing* element is `InvalidLength`, while a present element
that fails to parse falls back (`unwrap_or`) per the CSS corner order. -/
def roundingRead (n : Node) (p : Path) : DRes ERounding :=
  if (scalarStr n).isSome then
    if ((scalarStr n).getD "") = "none" then .ok ERounding.ZERO
    else do
      let v ← f32Read n p
      pure (ERounding.same v)
  else do
    let elems ← readArrayL n p
    match elems with
    | [] => .err (.invalidLength 0 roundingExpected p)
    | [t0] => do
      let _ ← f32Read t0.1 t0.2
      .err (.invalidLength 1 roundingExpected p)
    | [t0, t1] => do
      let tl ← f32Read t0.1 t0.2
      let _ ← DRes.getOr (f32Read t1.1 t1.2) tl
      .err (.invalidLength 2 roundingExpected p)
    | [t0, t1, t2] => do
      let tl ← f32Read t0.1 t0.2
      let _ ← DRes.getOr (f32Read t1.1 t1.2) tl
      let _ ← DRes.getOr (f32Read t2.1 t2.2) tl
      .err (.invalidLength 3 roundingExpected p)
    | t0 :: t1 :: t2 :: t3 :: rest => do
      let tl ← f32Read t0.1 t0.2
      let tr ← DRes.getOr (f32Read t1.1 t1.2) tl
      let br ← DRes.getOr (f32Read t2.1 t2.2) tl
      let bl ← DRes.getOr (f32Read t3.1 t3.2) tr
      match rest with
      | [] => pure ⟨tl, tr, br, bl⟩
      | _ :: _ => .err (.invalidLength 5 roundingExpected p)

/-- `Sense::read_uiconf`: a scalar is one of the `SenseKind` shorthands;
an array accumulates `SenseType` flags onto `Sense::hover()`. -/
def senseRead (n : Node) (p : Path) : DRes ESense :=
  if (scalarStr n).isSome then do
    let k ← enumRead SenseKind.table n p
    match k with
    | .hover => pure ⟨false, false, false⟩
    | .focusableNoninteractive => pure ⟨false, false, true⟩
    | .click => pure ⟨true, false, true⟩
    | .drag => pure ⟨false, true, true⟩
    | .clickAndDrag => pure ⟨true, true, true⟩
  else do
    let elems ← readArrayL n p
    elems.foldlM (fun (acc : ESense) (e : Node × Path) => do
      match ← enumRead SenseType.table e.1 e.2 with
      | SenseType.click => pure { acc with click := true }
      | SenseType.drag => pure { acc with drag := true }
      | SenseType.focusable => pure { acc with focusable := true })
      ⟨false, false, false⟩

/-- The three `Size` const-generic modes (`SIZE_ANY_IS_ZERO`,
`SIZE_ANY_IS_INF`, `SIZE_ANY_DISALLOWED` in model.rs). -/
inductive SizeAnyMode where
  | anyIsZero | anyIsInf | anyDisallowed
deriving DecidableEq

def sizeExpected : String := "\x7b x y \x7d"

/-- `AnyOrF32::read_uiconf`. -/
def anyOrF32Read (n : Node) (p : Path) : DRes (Option F32) := do
  let s ← readStringD n p
  if s = "any" then pure none
  else do
    let v ← f32Read n p
    pure (some v)

def sizeAnyDefault : SizeAnyMode → F32
  | .anyIsZero => .num 0
  | _ => .inf

/-- `Size::<ANY>::read_uiconf`. -/
def sizeRead (mode : SizeAnyMode) (n : Node) (p : Path) : DRes Vec2 := do
  let elems ← readArrayL n p
  match mode with
  | .anyDisallowed =>
    match elems with
    | [] => .err (.invalidLength 0 sizeExpected p)
    | [e0] => do
      let _ ← f32Read e0.1 e0.2
      .err (.invalidLength 1 sizeExpected p)
    | e0 :: e1 :: rest => do
      let x ← f32Read e0.1 e0.2
      let y ← f32Read e1.1 e1.2
      match rest with
      | [] => pure ⟨x, y⟩
      | _ :: _ => .err (.invalidLength 3 sizeExpected p)
  | mode =>
    match elems with
    | [] => .err (.invalidLength 0 sizeExpected p)
    | [e0] => do
      let _ ← anyOrF32Read e0.1 e0.2
      .err (.invalidLength 1 sizeExpected p)
    | e0 :: e1 :: rest => do
      let x ← anyOrF32Read e0.1 e0.2
      let y ← anyOrF32Read e1.1 e1.2
      match rest with
      | [] => pure ⟨x.getD (sizeAnyDefault mode), y.getD (sizeAnyDefault mode)⟩
      | _ :: _ => .err (.invalidLength 3 sizeExpected p)

/-- `Empty::read_uiconf`: accepts any array/object token (`{}` included). -/
def emptyRead (n : Node) (p : Path) : DRes Unit :=
  match n with
  | .arr _ => .ok ()
  | .obj _ _ => .ok ()
  | _ => .err (.invalidType (tokenType n) "\x7b\x7d" p)

def anchorExpected : String := "\x7b align valign x y \x7d"

structure Anchor where
  align : Align2
  offset : Vec2
deriving DecidableEq

/-- The pairing/swap logic of `Anchor::read_uiconf` (model.rs 577-586):
keep `(x, y)` when x can be horizontal and y vertical, swap when the other
way round, otherwise no decomposition exists. -/
def alignCombine (x y : Alignment) : Option (Alignment × Alignment) :=
  if x.can_be_horizontal && y.can_be_vertical then some (x, y)
  else if x.can_be_vertical && y.can_be_horizontal then some (y, x)
  else none

/-- Horizontal arm of the `Align2` construction; `Top`/`Bottom` hit the
source's `unreachable!()`. -/
def alignX : Alignment → DRes EAlign
  | .left => .ok .min
  | .center => .ok .center
  | .right => .ok .max
  | _ => .panicked

/-- Vertical arm of the `Align2` construction; `Left`/`Right` hit the
source's `unreachable!()`. -/
def alignY : Alignment → DRes EAlign
  | .top => .ok .min
  | .center => .ok .center
  | .bottom => .ok .max
  | _ => .panicked

/-- `Anchor::read_uiconf`. -/
def Anchor.read_uiconf (n : Node) (p : Path) : DRes Anchor := do
  let elems ← readArrayL n p
  match elems with
  | [] => .err (.invalidLength 0 anchorExpected p)
  | [e0] => do
    let _ ← Alignment.read_uiconf e0.1 e0.2
    .err (.invalidLength 1 anchorExpected p)
  | e0 :: e1 :: rest => do
    let ax ← Alignment.read_uiconf e0.1 e0.2
    let ay ← Alignment.read_uiconf e1.1 e1.2
    match alignCombine ax ay with
    | none =>
      .err (.custom ("invalid alignment: `" ++ ax.toStr ++ " " ++ ay.toStr ++ "`") p)
    | some (hx, vy) => do
      let ex ← alignX hx
      let ey ← alignY vy
      match rest with
      | [] => pure ⟨⟨ex, ey⟩, Vec2.ZERO⟩
      | [o1] => do
        let _ ← f32Read o1.1 o1.2
        .err (.invalidLength 3 anchorExpected p)
      | [o1, o2] => do
        let ox ← f32Read o1.1 o1.2
        let oy ← f32Read o2.1 o2.2
        pure ⟨⟨ex, ey⟩, ⟨ox, oy⟩⟩
      | o1 :: o2 :: _ :: _ => do
        let _ ← f32Read o1.1 o1.2
        let _ ← f32Read o2.1 o2.2
        .err (.invalidLength 5 anchorExpected p)

/-! ## RichText (model.rs) -/

inductive RichTextProperty where
  | size (v : Binding F32)
  | style (v : List RichTextStyle)
  | color (v : Binding BColor)
  | backgroundColor (v : Binding BColor)
  | lineHeight (v : Binding F32)
  | extraLetterSpacing (v : Binding F32)
deriving DecidableEq

def RichTextProperty.FIELDS : List String :=
  ["size", "style", "color", "background_color", "line_height", "extra_letter_spacing"]

/-- `RichTextProperty::read_map_value` (the `Binding<Color> → Binding<bevy
Color>` `map_value` is the elided newtype projection). -/
def RichTextProperty.read_map_value (tag : String) (n : Node) (p : Path) :
    DRes RichTextProperty :=
  if tag = "size" then DRes.map .size (bindingRead f32Read n p)
  else if tag = "extra_letter_spacing" then
    DRes.map .extraLetterSpacing (bindingRead f32Read n p)
  else if tag = "line_height" then DRes.map .lineHeight (bindingRead f32Read n p)
  else if tag = "style" then
    DRes.map .style (vecRead RichTextStyle.read_uiconf n p)
  else if tag = "background_color" then
    DRes.map .backgroundColor (bindingRead colorRead n p)
  else if tag = "color" then DRes.map .color (bindingRead colorRead n p)
  else .err (.unknownField tag (joinExpected RichTextProperty.FIELDS) p)

structure RichText where
  text : Binding String
  props : List RichTextProperty
deriving DecidableEq

def RichText.FIELDS : List String := ["text"] ++ RichTextProperty.FIELDS

def RichText.new (text : Binding String) : RichText := ⟨text, []⟩

def richTextFields :
    List (String × Node) → Path → Option (Binding String) →
      List RichTextProperty → DRes RichText
  | [], p, text?, props =>
    match text? with
    | some t => .ok ⟨t, props⟩
    | none => .err (.missingField "text" p)
  | (key, v) :: rest, p, text?, props =>
    if key = "text" then
      match text? with
      | some _ => .err (.duplicateField "text" (p ++ [key]))
      | none => do
        let t ← bindingRead stringRead v (p ++ [key])
        richTextFields rest p (some t) props
    else if RichTextProperty.FIELDS.contains key then do
      let pr ← RichTextProperty.read_map_value key v (p ++ [key])
      richTextFields rest p text? (props ++ [pr])
    else .err (.unknownField key (joinExpected RichText.FIELDS) (p ++ [key]))

/-- `RichText::read_uiconf`: scalar shorthand for a plain text binding, or
an object with a mandatory `text` field. -/
def RichText.read_uiconf (n : Node) (p : Path) : DRes RichText :=
  if isScalar n then DRes.map RichText.new (bindingRead stringRead n p)
  else do
    let fields ← readObjectL n p
    richTextFields fields p none []

/-! ## Widget property enums (model.rs, non-recursive) -/

inductive ButtonProperty where
  | shortcutText (t : RichText)
  | wrap (b : Bool)
  | fill (c : Binding BColor)
  | stroke (s : Stroke)
  | sense (s : ESense)
  | frame (b : Bool)
  | minSize (v : Vec2)
  | rounding (r : ERounding)
  | selected (b : Bool)
deriving DecidableEq

def ButtonProperty.FIELDS : List String :=
  ["shortcut_text", "wrap", "fill", "stroke", "sense", "frame", "min_size",
   "rounding", "selected"]

/-- `ButtonProperty::read_map_value`. -/
def ButtonProperty.read_map_value (tag : String) (n : Node) (p : Path) :
    DRes ButtonProperty :=
  if tag = "shortcut_text" then DRes.map .shortcutText (RichText.read_uiconf n p)
  else if tag = "wrap" then DRes.map .wrap (boolRead n p)
  else if tag = "fill" then DRes.map .fill (bindingRead colorRead n p)
  else if tag = "stroke" then DRes.map .stroke (strokeRead n p)
  else if tag = "sense" then DRes.map ButtonProperty.sense (senseRead n p)
  else if tag = "frame" then DRes.map .frame (boolRead n p)
  else if tag = "min_size" then DRes.map .minSize (sizeRead .anyIsZero n p)
  else if tag = "rounding" then DRes.map ButtonProperty.rounding (roundingRead n p)
  else if tag = "selected" then DRes.map .selected (boolRead n p)
  else .err (.unknownField tag (joinExpected ButtonProperty.FIELDS) p)

inductive LabelProperty where
  | wrap (b : Bool)
  | truncate (b : Bool)
  | sense (s : ESense)
deriving DecidableEq

def LabelProperty.FIELDS : List String := ["wrap", "truncate", "sense"]

/-- `LabelProperty::read_map_value`. -/
def LabelProperty.read_map_value (tag : String) (n : Node) (p : Path) :
    DRes LabelProperty :=
  if tag = "wrap" then DRes.map .wrap (boolRead n p)
  else if tag = "truncate" then DRes.map .truncate (boolRead n p)
  else if tag = "sense" then DRes.map LabelProperty.sense (senseRead n p)
  else .err (.unknownField tag (joinExpected LabelProperty.FIELDS) p)

inductive SeparatorProperty where
  | vertical (b : Bool)
  | spacing (v : F32)
  | grow (v : F32)
  | shrink (v : F32)
deriving DecidableEq

def SeparatorProperty.FIELDS : List String := ["vertical", "spacing", "grow", "shrink"]

/-- `SeparatorProperty::read_map_value`. -/
def SeparatorProperty.read_map_value (tag : String) (n : Node) (p : Path) :
    DRes SeparatorProperty :=
  if tag = "vertical" then DRes.map .vertical (boolRead n p)
  else if tag = "spacing" then DRes.map .spacing (f32Read n p)
  else if tag = "grow" then DRes.map .grow (f32Read n p)
  else if tag = "shrink" then DRes.map .shrink (f32Read n p)
  else .err (.unknownField tag (joinExpected SeparatorProperty.FIELDS) p)

def ResponseProperty.FIELDS : List String :=
  ["clicked", "secondary_clicked", "middle_clicked", "double_clicked",
   "triple_clicked", "clicked_elsewhere", "hovered", "highlighted", "changed",
   "on_hover", "on_disabled_hover", "on_hover_at_pointer", "highlight"]

def ContentWidget.FIELDS : List String := ["button", "label", "separator", "layout"]

/-! ## egui Layout state (external egui; defaults not load-bearing) -/

structure EguiLayout where
  main_dir : LDirection
  main_wrap : Bool
  main_align : EAlign
  main_justify : Bool
  cross_align : EAlign
  cross_justify : Bool
deriving DecidableEq

/-- `egui::Layout::default()`. -/
def EguiLayout.default : EguiLayout := ⟨.topDown, false, .center, false, .min, false⟩

/-- The `From<Align> for egui::Align` conversion of `Layout::read_uiconf`. -/
def LAlign.toEgui : LAlign → EAlign
  | .min => .min
  | .center => .center
  | .max => .max

def Layout.propKeys : List String :=
  ["main_dir", "main_wrap", "main_align", "main_justify", "cross_align",
   "cross_justify", "visible"]

def Layout.FIELDS : List String := Layout.propKeys ++ ContentWidget.FIELDS

/-- The seven property arms of the key match in `Layout::read_uiconf`; the
final arm is unreachable behind the `propKeys` membership guard. -/
def layoutSetProp (key : String) (n : Node) (p : Path)
    (lay : EguiLayout) (vis : Option (Binding Bool)) :
    DRes (EguiLayout × Option (Binding Bool)) :=
  if key = "main_dir" then do
    let d ← LDirection.read_uiconf n p
    pure ({ lay with main_dir := d }, vis)
  else if key = "main_wrap" then do
    let b ← boolRead n p
    pure ({ lay with main_wrap := b }, vis)
  else if key = "main_align" then do
    let a ← LAlign.read_uiconf n p
    pure ({ lay with main_align := a.toEgui }, vis)
  else if key = "main_justify" then do
    let b ← boolRead n p
    pure ({ lay with main_justify := b }, vis)
  else if key = "cross_align" then do
    let a ← LAlign.read_uiconf n p
    pure ({ lay with cross_align := a.toEgui }, vis)
  else if key = "cross_justify" then do
    let b ← boolRead n p
    pure ({ lay with cross_justify := b }, vis)
  else if key = "visible" then do
    let v ← bindingRead boolRead n p
    pure (lay, some v)
  else .err (.unknownField key (joinExpected Layout.FIELDS) p)

/-! ## Size bookkeeping for the recursive decoders -/

theorem sizeOf_mapSnd (fields : List (String × Option String × Node)) :
    sizeOf (fields.map fun f => (f.1, f.2.2)) ≤ sizeOf fields := by
  induction fields with
  | nil => simp
  | cons f rest ih =>
    obtain ⟨k, op, v⟩ := f
    simp only [List.map_cons, List.cons.sizeOf_spec, Prod.mk.sizeOf_spec]
    have hop : 0 ≤ sizeOf op := Nat.zero_le _
    omega

theorem readObjectL_sizeOf {n : Node} {p : Path} {l : List (String × Node)}
    (h : readObjectL n p = .ok l) : sizeOf l < sizeOf n := by
  cases n with
  | unquoted s => simp [readObjectL] at h
  | quoted s => simp [readObjectL] at h
  | arr elems =>
    cases elems with
    | nil =>
      simp [readObjectL] at h
      subst h
      simp
    | cons v rest => simp [readObjectL] at h
  | obj fields rem =>
    cases hop : firstOp fields with
    | some op => simp [readObjectL, hop] at h
    | none =>
      cases rem with
      | cons v rest => simp [readObjectL, hop] at h
      | nil =>
        simp [readObjectL, hop] at h
        subst h
        have := sizeOf_mapSnd fields
        simp only [Node.obj.sizeOf_spec]
        omega

/-- The window ordering-violation message (model.rs 174-177). -/
def windowOrderMsg (key lc : String) : String :=
  "all window properties should be above content, but `" ++ key ++
    "` is located after `" ++ lc ++ "`"

/-- The layout ordering-violation message (model.rs 420-423). -/
def layoutOrderMsg (key lc : String) : String :=
  "all layout properties should be above content, but `" ++ key ++
    "` is located after `" ++ lc ++ "`"

/-! ## The recursive widget tree (model.rs)

`Content` is the `Content(Vec<ContentWidget>)` newtype; the wrapper adds no
data and is elided, so `Content::read_uiconf` returns the widget list. -/

mutual

inductive ContentWidget where
  | button (b : Button)
  | label (l : Label)
  | separator (s : Separator)
  | layout (l : Layout)

inductive Button where
  | mk (text : RichText) (small : Bool) (visible : Option (Binding Bool))
       (props : List ButtonProperty) (response : List ResponseProperty)

inductive Label where
  | mk (text : RichText) (visible : Option (Binding Bool))
       (props : List LabelProperty) (response : List ResponseProperty)

inductive Separator where
  | mk (visible : Option (Binding Bool)) (props : List SeparatorProperty)
       (response : List ResponseProperty)

inductive Layout where
  | mk (layout : EguiLayout) (visible : Option (Binding Bool))
       (content : List ContentWidget)

inductive ResponseProperty where
  | clicked (r : BindingRefM)
  | secondaryClicked (r : BindingRefM)
  | middleClicked (r : BindingRefM)
  | doubleClicked (r : BindingRefM)
  | tripleClicked (r : BindingRefM)
  | clickedElsewhere (r : BindingRefM)
  | hovered (r : BindingRefM)
  | highlighted (r : BindingRefM)
  | changed (r : BindingRefM)
  | onHover (c : List ContentWidget)
  | onDisabledHover (c : List ContentWidget)
  | onHoverAtPointer (c : List ContentWidget)
  | highlight (b : Binding Bool)

end

/-- `Button::new`. -/
def Button.new (text : RichText) : Button := .mk text false none [] []

/-- `Label::new`. -/
def Label.new (text : RichText) : Label := .mk text none [] []

def Button.FIELDS : List String :=
  ["text", "small", "visible"] ++ ButtonProperty.FIELDS ++ ResponseProperty.FIELDS

def Label.FIELDS : List String :=
  ["text", "visible"] ++ LabelProperty.FIELDS ++ ResponseProperty.FIELDS

def Separator.FIELDS : List String :=
  ["visible"] ++ SeparatorProperty.FIELDS ++ ResponseProperty.FIELDS

mutual

/-- `ContentWidget::read_map_value`. -/
def ContentWidget.read_map_value (tag : String) (n : Node) (p : Path) :
    DRes ContentWidget :=
  if tag = "button" then DRes.map .button (Button.read_uiconf n p)
  else if tag = "label" then DRes.map .label (Label.read_uiconf n p)
  else if tag = "separator" then DRes.map .separator (Separator.read_uiconf n p)
  else if tag = "layout" then DRes.map .layout (Layout.read_uiconf n p)
  else .err (.unknownField tag (joinExpected ContentWidget.FIELDS) p)
termination_by (sizeOf n, 2)

/-- `Button::read_uiconf`: scalar shorthand `Button::new`, or an object. -/
def Button.read_uiconf (n : Node) (p : Path) : DRes Button :=
  if isScalar n then DRes.map Button.new (RichText.read_uiconf n p)
  else
    match hf : readObjectL n p with
    | .panicked => .panicked
    | .err e => .err e
    | .ok fields => buttonFields fields p none none false [] []
termination_by (sizeOf n, 1)
decreasing_by
  exact Prod.Lex.left _ _ (readObjectL_sizeOf hf)

/-- The field loop of `Button::read_uiconf`. -/
def buttonFields (fields : List (String × Node)) (p : Path)
    (text? : Option RichText) (visible? : Option (Binding Bool)) (small : Bool)
    (props : List ButtonProperty) (response : List ResponseProperty) : DRes Button :=
  match fields with
  | [] =>
    match text? with
    | some t => .ok (.mk t small visible? props response)
    | none => .err (.missingField "text" p)
  | (key, v) :: rest =>
    if key = "text" then
      match text? with
      | some _ => .err (.duplicateField "text" (p ++ [key]))
      | none =>
        match RichText.read_uiconf v (p ++ [key]) with
        | .panicked => .panicked
        | .err e => .err e
        | .ok t => buttonFields rest p (some t) visible? small props response
    else if key = "visible" then
      match visible? with
      | some _ => .err (.duplicateField "visible" (p ++ [key]))
      | none =>
        match bindingRead boolRead v (p ++ [key]) with
        | .panicked => .panicked
        | .err e => .err e
        | .ok vb => buttonFields rest p text? (some vb) small props response
    else if key = "small" then
      match boolRead v (p ++ [key]) with
      | .panicked => .panicked
      | .err e => .err e
      | .ok b => buttonFields rest p text? visible? b props response
    else if ButtonProperty.FIELDS.contains key then
      match ButtonProperty.read_map_value key v (p ++ [key]) with
      | .panicked => .panicked
      | .err e => .err e
      | .ok bp => buttonFields rest p text? visible? small (props ++ [bp]) response
    else if ResponseProperty.FIELDS.contains key then
      match ResponseProperty.read_map_value key v (p ++ [key]) with
      | .panicked => .panicked
      | .err e => .err e
      | .ok rp => buttonFields rest p text? visible? small props (response ++ [rp])
    else .err (.unknownField key (joinExpected Button.FIELDS) (p ++ [key]))
termination_by (sizeOf fields, 0)

/-- `Label::read_uiconf`: scalar shorthand `Label::new`, or an object. -/
def Label.read_uiconf (n : Node) (p : Path) : DRes Label :=
  if isScalar n then DRes.map Label.new (RichText.read_uiconf n p)
  else
    match hf : readObjectL n p with
    | .panicked => .panicked
    | .err e => .err e
    | .ok fields => labelFields fields p none none [] []
termination_by (sizeOf n, 1)
decreasing_by
  exact Prod.Lex.left _ _ (readObjectL_sizeOf hf)

/-- The field loop of `Label::read_uiconf`. -/
def labelFields (fields : List (String × Node)) (p : Path)
    (text? : Option RichText) (visible? : Option (Binding Bool))
    (props : List LabelProperty) (response : List ResponseProperty) : DRes Label :=
  match fields with
  | [] =>
    match text? with
    | some t => .ok (.mk t visible? props response)
    | none => .err (.missingField "text" p)
  | (key, v) :: rest =>
    if key = "text" then
      match text? with
      | some _ => .err (.duplicateField "text" (p ++ [key]))
      | none =>
        match RichText.read_uiconf v (p ++ [key]) with
        | .panicked => .panicked
        | .err e => .err e
        | .ok t => labelFields rest p (some t) visible? props response
    else if key = "visible" then
      match visible? with
      | some _ => .err (.duplicateField "visible" (p ++ [key]))
      | none =>
        match bindingRead boolRead v (p ++ [key]) with
        | .panicked => .panicked
        | .err e => .err e
        | .ok vb => labelFields rest p text? (some vb) props response
    else if LabelProperty.FIELDS.contains key then
      match LabelProperty.read_map_value key v (p ++ [key]) with
      | .panicked => .panicked
      | .err e => .err e
      | .ok lp => labelFields rest p text? visible? (props ++ [lp]) response
    else if ResponseProperty.FIELDS.contains key then
      match ResponseProperty.read_map_value key v (p ++ [key]) with
      | .panicked => .panicked
      | .err e => .err e
      | .ok rp => labelFields rest p text? visible? props (response ++ [rp])
    else .err (.unknownField key (joinExpected Label.FIELDS) (p ++ [key]))
termination_by (sizeOf fields, 0)

/-- `Separator::read_uiconf` (object only, no scalar shorthand). -/
def Separator.read_uiconf (n : Node) (p : Path) : DRes Separator :=
  match hf : readObjectL n p with
  | .panicked => .panicked
  | .err e => .err e
  | .ok fields => separatorFields fields p none [] []
termination_by (sizeOf n, 1)
decreasing_by
  exact Prod.Lex.left _ _ (readObjectL_sizeOf hf)

/-- The field loop of `Separator::read_uiconf`. -/
def separatorFields (fields : List (String × Node)) (p : Path)
    (visible? : Option (Binding Bool)) (props : List SeparatorProperty)
    (response : List ResponseProperty) : DRes Separator :=
  match fields with
  | [] => .ok (.mk visible? props response)
  | (key, v) :: rest =>
    if key = "visible" then
      match visible? with
      | some _ => .err (.duplicateField "visible" (p ++ [key]))
      | none =>
        match bindingRead boolRead v (p ++ [key]) with
        | .panicked => .panicked
        | .err e => .err e
        | .ok vb => separatorFields rest p (some vb) props response
    else if SeparatorProperty.FIELDS.contains key then
      match SeparatorProperty.read_map_value key v (p ++ [key]) with
      | .panicked => .panicked
      | .err e => .err e
      | .ok sp => separatorFields rest p visible? (props ++ [sp]) response
    else if ResponseProperty.FIELDS.contains key then
      match ResponseProperty.read_map_value key v (p ++ [key]) with
      | .panicked => .panicked
      | .err e => .err e
      | .ok rp => separatorFields rest p visible? props (response ++ [rp])
    else .err (.unknownField key (joinExpected Separator.FIELDS) (p ++ [key]))
termination_by (sizeOf fields, 0)

/-- `Layout::read_uiconf`. -/
def Layout.read_uiconf (n : Node) (p : Path) : DRes Layout :=
  match hf : readObjectL n p with
  | .panicked => .panicked
  | .err e => .err e
  | .ok fields => layoutFields fields p EguiLayout.default none [] none
termination_by (sizeOf n, 1)
decreasing_by
  exact Prod.Lex.left _ _ (readObjectL_sizeOf hf)

/-- The field loop of `Layout::read_uiconf`, with the incremental
"properties above content" ordering enforcement. -/
def layoutFields (fields : List (String × Node)) (p : Path)
    (lay : EguiLayout) (visible? : Option (Binding Bool))
    (content : List ContentWidget) (lastContent : Option String) : DRes Layout :=
  match fields with
  | [] => .ok (.mk lay visible? content)
  | (key, v) :: rest =>
    if Layout.propKeys.contains key then
      match layoutSetProp key v (p ++ [key]) lay visible? with
      | .panicked => .panicked
      | .err e => .err e
      | .ok st =>
        match lastContent with
        | some lc =>
          .err (.custom (layoutOrderMsg key lc) (p ++ [key]))
        | none => layoutFields rest p st.1 st.2 content none
    else if ContentWidget.FIELDS.contains key then
      match ContentWidget.read_map_value key v (p ++ [key]) with
      | .panicked => .panicked
      | .err e => .err e
      | .ok w => layoutFields rest p lay visible? (content ++ [w]) (some key)
    else .err (.unknownField key (joinExpected Layout.FIELDS) (p ++ [key]))
termination_by (sizeOf fields, 0)

/-- `ResponseProperty::read_map_value`. -/
def ResponseProperty.read_map_value (tag : String) (n : Node) (p : Path) :
    DRes ResponseProperty :=
  if tag = "clicked" then DRes.map .clicked (bindingRefRead n p)
  else if tag = "secondary_clicked" then DRes.map .secondaryClicked (bindingRefRead n p)
  else if tag = "middle_clicked" then DRes.map .middleClicked (bindingRefRead n p)
  else if tag = "double_clicked" then DRes.map .doubleClicked (bindingRefRead n p)
  else if tag = "triple_clicked" then DRes.map .tripleClicked (bindingRefRead n p)
  else if tag = "clicked_elsewhere" then DRes.map .clickedElsewhere (bindingRefRead n p)
  else if tag = "hovered" then DRes.map .hovered (bindingRefRead n p)
  else if tag = "highlighted" then DRes.map .highlighted (bindingRefRead n p)
  else if tag = "changed" then DRes.map .changed (bindingRefRead n p)
  else if tag = "on_hover" then DRes.map .onHover (Content.read_uiconf n p)
  else if tag = "on_disabled_hover" then DRes.map .onDisabledHover (Content.read_uiconf n p)
  else if tag = "on_hover_at_pointer" then DRes.map .onHoverAtPointer (Content.read_uiconf n p)
  else if tag = "highlight" then DRes.map .highlight (bindingRead boolRead n p)
  else .err (.unknownField tag (joinExpected ResponseProperty.FIELDS) p)
termination_by (sizeOf n, 2)

/-- `Content::read_uiconf`: a scalar is the `Label` shorthand; otherwise the
object's fields are decoded as widgets in order. -/
def Content.read_uiconf (n : Node) (p : Path) : DRes (List ContentWidget) :=
  if isScalar n then
    match RichText.read_uiconf n p with
    | .panicked => .panicked
    | .err e => .err e
    | .ok t => .ok [.label (Label.new t)]
  else
    match hf : readObjectL n p with
    | .panicked => .panicked
    | .err e => .err e
    | .ok fields => contentFields fields p []
termination_by (sizeOf n, 1)
decreasing_by
  exact Prod.Lex.left _ _ (readObjectL_sizeOf hf)

/-- The widget loop of `Content::read_uiconf`. -/
def contentFields (fields : List (String × Node)) (p : Path)
    (acc : List ContentWidget) : DRes (List ContentWidget) :=
  match fields with
  | [] => .ok acc
  | (key, v) :: rest =>
    match ContentWidget.read_map_value key v (p ++ [key]) with
    | .panicked => .panicked
    | .err e => .err e
    | .ok w => contentFields rest p (acc ++ [w])
termination_by (sizeOf fields, 0)

end

/-! ## Window and document root (model.rs) -/

inductive WindowProperty where
  | anchor (a : Anchor)
  | titleBar (b : Binding Bool)
  | defaultSize (v : Vec2)
  | minSize (v : Vec2)
  | maxSize (v : Vec2)
  | fixedSize (v : Vec2)
  | autoSized
  | resizable (b : Binding Bool)
  | enabled (b : Binding Bool)
  | interactable (b : Binding Bool)
  | movable (b : Binding Bool)
  | collapsible (b : Binding Bool)
deriving DecidableEq

def WindowProperty.FIELDS : List String :=
  ["id", "anchor", "title_bar",
   "default_size", "min_size", "max_size", "fixed_size", "auto_sized",
   "resizable", "enabled", "interactable", "movable", "collapsible"]

/-- `WindowProperty::read_map_value`.  `id` is listed in `FIELDS` but has no
match arm in the source, so it falls to the unknown-field arm. -/
def WindowProperty.read_map_value (tag : String) (n : Node) (p : Path) :
    DRes WindowProperty :=
  if tag = "anchor" then DRes.map .anchor (Anchor.read_uiconf n p)
  else if tag = "title_bar" then DRes.map .titleBar (bindingRead boolRead n p)
  else if tag = "default_size" then DRes.map .defaultSize (sizeRead .anyDisallowed n p)
  else if tag = "min_size" then DRes.map .minSize (sizeRead .anyIsZero n p)
  else if tag = "max_size" then DRes.map .maxSize (sizeRead .anyIsInf n p)
  else if tag = "fixed_size" then DRes.map .fixedSize (sizeRead .anyDisallowed n p)
  else if tag = "auto_sized" then DRes.map (fun _ => .autoSized) (emptyRead n p)
  else if tag = "resizable" then DRes.map .resizable (bindingRead boolRead n p)
  else if tag = "enabled" then DRes.map .enabled (bindingRead boolRead n p)
  else if tag = "interactable" then DRes.map .interactable (bindingRead boolRead n p)
  else if tag = "movable" then DRes.map .movable (bindingRead boolRead n p)
  else if tag = "collapsible" then DRes.map .collapsible (bindingRead boolRead n p)
  else .err (.unknownField tag (joinExpected WindowProperty.FIELDS) p)

structure Window where
  title : RichText
  props : List WindowProperty
  content : List ContentWidget

def Window.FIELDS : List String :=
  ["title"] ++ WindowProperty.FIELDS ++ ContentWidget.FIELDS

/-- The field loop of `Window::read_uiconf`: `title` and every
`WindowProperty` key are `should_be_on_top`; the ordering check runs after
the field's own decode succeeded. -/
def windowFields (fields : List (String × Node)) (p : Path)
    (title? : Option RichText) (props : List WindowProperty)
    (content : List ContentWidget) (lastContent : Option String) : DRes Window :=
  match fields with
  | [] =>
    match title? with
    | some t => .ok ⟨t, props, content⟩
    | none => .err (.missingField "title" p)
  | (key, v) :: rest =>
    if key = "title" then
      match title? with
      | some _ => .err (.duplicateField "title" (p ++ [key]))
      | none =>
        match RichText.read_uiconf v (p ++ [key]) with
        | .panicked => .panicked
        | .err e => .err e
        | .ok t =>
          match lastContent with
          | some lc => .err (.custom (windowOrderMsg key lc) (p ++ [key]))
          | none => windowFields rest p (some t) props content none
    else if WindowProperty.FIELDS.contains key then
      match WindowProperty.read_map_value key v (p ++ [key]) with
      | .panicked => .panicked
      | .err e => .err e
      | .ok wp =>
        match lastContent with
        | some lc => .err (.custom (windowOrderMsg key lc) (p ++ [key]))
        | none => windowFields rest p title? (props ++ [wp]) content none
    else if ContentWidget.FIELDS.contains key then
      match ContentWidget.read_map_value key v (p ++ [key]) with
      | .panicked => .panicked
      | .err e => .err e
      | .ok w => windowFields rest p title? props (content ++ [w]) (some key)
    else .err (.unknownField key (joinExpected Window.FIELDS) (p ++ [key]))

/-- `Window::read_uiconf`. -/
def Window.read_uiconf (n : Node) (p : Path) : DRes Window :=
  match readObjectL n p with
  | .panicked => .panicked
  | .err e => .err e
  | .ok fields => windowFields fields p none [] [] none

def Root.FIELDS : List String := ["window"]

/-- The top-level field loop of `Root::read`: exactly one `window` key, any
operator on it rejected, any other key unknown. -/
def rootFields (fields : List (String × Option String × Node))
    (acc : Option Window) : DRes Window :=
  match fields with
  | [] =>
    match acc with
    | some w => .ok w
    | none => .err (.missingField "window" [])
  | (key, op, v) :: rest =>
    if key = "window" then
      match op with
      | some o => .err (.unexpectedOperator o [key])
      | none =>
        match acc with
        | some _ => .err (.duplicateField "window" [key])
        | none =>
          match Window.read_uiconf v [key] with
          | .panicked => .panicked
          | .err e => .err e
          | .ok w => rootFields rest (some w)
    else .err (.unknownField key (joinExpected Root.FIELDS) [key])

/-- `Root::read`.  Its very first statement is
`TextTape::from_slice(data).unwrap()`: when the byte buffer is not
well-formed tape text the parse fails and the `unwrap` panics, modelled by
the `none` input; a parsed tape is the top-level field list. -/
def Root.read (tape : Option (List (String × Option String × Node))) : DRes Window :=
  match tape with
  | none => .panicked
  | some fields => rootFields fields none

/-! ## Binding resolution (reader/binding.rs `BindingRef::resolve_ref`)

The reflective data object (`&dyn Reflect`) is a dynamic value carrying its
runtime type path; `downcast_ref::<T>` succeeds exactly when the stored
value's concrete type is `T`. -/

inductive DynValue where
  | leaf (typePath : String)
  | strct (typePath : String) (fields : List (String × DynValue))
  | listv (typePath : String) (elems : List DynValue)

def DynValue.typePathOf : DynValue → String
  | .leaf t => t
  | .strct t _ => t
  | .listv t _ => t

/-- bevy `Struct::field`: the first field with the given name. -/
def lookupField (fields : List (String × DynValue)) (name : String) : Option DynValue :=
  (fields.find? (fun kv => kv.1 == name)).map (·.2)

/-- Resolution failures (the `anyhow` error messages of the source). -/
inductive ResolveErr where
  | expectedStruct
  | keyNotFound
  | typeMismatch (expected actual : String)
deriving DecidableEq

/-- The fallible core of `BindingRef::resolve_ref` (the inner closure):
the data object must reflect as a struct, the field must exist, and its
runtime type must down-cast to the expected one. -/
def resolveRefCore (expected : String) (name : String) (data : DynValue) :
    Except ResolveErr DynValue :=
  match data with
  | .strct _ fields =>
    match lookupField fields name with
    | none => .error .keyNotFound
    | some v =>
      if v.typePathOf = expected then .ok v
      else .error (.typeMismatch expected v.typePathOf)
  | _ => .error .expectedStruct

/-- `BindingRef::resolve_ref`: run the core lookup; on failure raise the
one-shot `warned` flag (`fetch_or(true)`), which guards only the log line.
Returns the result together with the binding's updated flag state. -/
def resolveRef (expected : String) (b : BindingRefM) (data : DynValue) :
    Except ResolveErr DynValue × BindingRefM :=
  match resolveRefCore expected b.name data with
  | .ok v => (.ok v, b)
  | .error e => (.error e, { b with warned := true })

/-! ## Generic facts about the strum-style enum decode -/

theorem strumFind_eq_none (table : List (String × α)) (s : String)
    (h : s ∉ table.map (·.1)) : strumFind table s = none := by
  induction table with
  | nil => rfl
  | cons kv rest ih =>
    simp only [List.map_cons, List.mem_cons, not_or] at h
    obtain ⟨h1, h2⟩ := h
    unfold strumFind
    rw [List.find?_cons_of_neg]
    · exact ih h2
    · simp
      exact fun hh => h1 hh.symm

theorem strumFind_isSome_of_mem (table : List (String × α)) (s : String)
    (h : s ∈ table.map (·.1)) : ∃ a, strumFind table s = some a := by
  induction table with
  | nil => simp at h
  | cons kv rest ih =>
    by_cases hh : kv.1 = s
    · refine ⟨kv.2, ?_⟩
      unfold strumFind
      rw [List.find?_cons_of_pos _ (by simp [hh])]
      rfl
    · simp only [List.map_cons, List.mem_cons] at h
      have h2 : s ∈ rest.map (·.1) := by
        rcases h with h | h
        · exact absurd h.symm hh
        · exact h
      obtain ⟨a, ha⟩ := ih h2
      refine ⟨a, ?_⟩
      unfold strumFind at ha ⊢
      rw [List.find?_cons_of_neg]
      · exact ha
      · simp [hh]

theorem enumRead_of_mem (table : List (String × α)) (s : String) (p : Path)
    (h : s ∈ table.map (·.1)) : ∃ a, enumRead table (.unquoted s) p = .ok a := by
  obtain ⟨a, ha⟩ := strumFind_isSome_of_mem table s h
  exact ⟨a, by simp [enumRead, readStringD, scalarStr, ha]⟩

theorem enumRead_of_not_mem (table : List (String × α)) (s : String) (p : Path)
    (h : s ∉ table.map (·.1)) :
    enumRead table (.unquoted s) p =
      .err (.unknownVariant s (joinExpected (table.map (·.1))) p) := by
  simp [enumRead, readStringD, scalarStr, strumFind_eq_none table s h]

/-! ## Claim theorems -/

/-- C1: the claim says `Root::read` never panics and returns a typed value
or a path-carrying `Error` for *every* byte buffer, including ones that are
not well-formed tape text.  The code's first statement is
`TextTape::from_slice(data).unwrap()`: when the tape parse fails (modelled
by the `none` input) it panics instead of returning an `Error`.  A
well-formed minimal document decodes fine, for contrast. -/
theorem root_read_panics_on_malformed_tape :
    Root.read none = DRes.panicked ∧
    Root.read (some [("window", none, .obj [("title", none, .quoted "t")] [])]) =
      .ok ⟨⟨.value "t", []⟩, [], []⟩ :=
  ⟨rfl, rfl⟩

/-- C2: the claim (and the code's own "same semantics as in CSS" comment)
says the `Rounding` array form accepts 1-4 numbers with trailing corners
defaulting from earlier ones.  The code instead demands exactly 4 elements:
each `seq.next()` is `ok_or(invalid_length)?`, so 1-, 2- and 3-element
arrays fail; the `unwrap_or` corner defaults apply only to elements that
are present but unparseable. -/
theorem rounding_array_requires_four :
    roundingRead (.arr [.unquoted "5", .unquoted "6"]) [] =
      .err (.invalidLength 2 roundingExpected []) ∧
    roundingRead (.arr [.unquoted "5"]) [] =
      .err (.invalidLength 1 roundingExpected []) ∧
    roundingRead (.arr [.unquoted "5", .unquoted "6", .unquoted "7"]) [] =
      .err (.invalidLength 3 roundingExpected []) ∧
    roundingRead (.arr [.unquoted "1", .unquoted "2", .unquoted "3", .unquoted "4"]) [] =
      .ok ⟨.num 1, .num 2, .num 3, .num 4⟩ :=
  ⟨rfl, rfl, rfl, rfl⟩

/-- C3 (counterexample): the bare unquoted sentinel `@` does *not* make
`Binding<T>` decoding fail — `strip_prefix('@')` on `"@"` yields the empty
name, so it decodes as a `Ref` with name `""`. -/
theorem bare_at_decodes_as_empty_ref :
    bindingRead stringRead (.unquoted "@") [] = .ok (.ref ⟨"", false⟩) := rfl

/-- C3 (amended): an unquoted scalar starting with `@` always decodes as a
`Ref` whose name is the remainder after the `@` — even when that name is
empty — and is never decoded as a literal `T` and never an error. -/
theorem at_scalar_always_ref (α : Type) (rt : Node → Path → DRes α)
    (s r : String) (p : Path) (h : stripLeadingAt s = some r) :
    bindingRead rt (.unquoted s) p = .ok (.ref ⟨r, false⟩) := by
  simp [bindingRead, bindingRefRead, h]

/-- C3 (witness): the amended theorem applied at the bare `@`. -/
theorem at_scalar_always_ref_witness :
    bindingRead boolRead (.unquoted "@flag") [] = .ok (.ref ⟨"flag", false⟩) :=
  at_scalar_always_ref Bool boolRead "@flag" "flag" [] rfl

/-- C4 (counterexample): enum decoding is *not* case-insensitive —
`"Left"` is rejected with `UnknownVariant` while `"left"` decodes. -/
theorem alignment_not_case_insensitive :
    Alignment.read_uiconf (.unquoted "Left") [] =
      .err (.unknownVariant "Left" (joinExpected Alignment.VARIANTS) []) ∧
    Alignment.read_uiconf (.unquoted "left") [] = .ok .left :=
  ⟨rfl, rfl⟩

/-- C4 (amended): every enumeration decoder (Alignment, RichTextStyle, the
layout Direction and Align enums) matches a scalar string *case-sensitively*
against its declared variant-name list and rejects any other input with
`UnknownVariant` listing all accepted names. -/
theorem enum_decoders_exact_match_unknown_variant :
    (∀ s p, (s ∈ Alignment.VARIANTS → ∃ a, Alignment.read_uiconf (.unquoted s) p = .ok a) ∧
      (s ∉ Alignment.VARIANTS → Alignment.read_uiconf (.unquoted s) p =
        .err (.unknownVariant s (joinExpected Alignment.VARIANTS) p))) ∧
    (∀ s p, (s ∈ RichTextStyle.VARIANTS → ∃ a, RichTextStyle.read_uiconf (.unquoted s) p = .ok a) ∧
      (s ∉ RichTextStyle.VARIANTS → RichTextStyle.read_uiconf (.unquoted s) p =
        .err (.unknownVariant s (joinExpected RichTextStyle.VARIANTS) p))) ∧
    (∀ s p, (s ∈ LDirection.VARIANTS → ∃ a, LDirection.read_uiconf (.unquoted s) p = .ok a) ∧
      (s ∉ LDirection.VARIANTS → LDirection.read_uiconf (.unquoted s) p =
        .err (.unknownVariant s (joinExpected LDirection.VARIANTS) p))) ∧
    (∀ s p, (s ∈ LAlign.VARIANTS → ∃ a, LAlign.read_uiconf (.unquoted s) p = .ok a) ∧
      (s ∉ LAlign.VARIANTS → LAlign.read_uiconf (.unquoted s) p =
        .err (.unknownVariant s (joinExpected LAlign.VARIANTS) p))) := by
  refine ⟨?_, ?_, ?_, ?_⟩ <;> intro s p <;>
    exact ⟨fun h => enumRead_of_mem _ s p h, fun h => enumRead_of_not_mem _ s p h⟩

/-- C4 (witness): the amended theorem applied at the unknown input `Left`. -/
theorem enum_decoders_witness :
    Alignment.read_uiconf (.unquoted "Left") [] =
      .err (.unknownVariant "Left" (joinExpected Alignment.VARIANTS) []) :=
  (enum_decoders_exact_match_unknown_variant.1 "Left" []).2 (by decide)

/-- C5 (counterexample): in the "any disallowed" `Size` mode the literal
`any` is rejected, but with the `ScalarError` variant (the `f32` parse
failure), not `InvalidValue` as the claim states. -/
theorem size_any_not_invalid_value :
    sizeRead .anyDisallowed (.arr [.unquoted "any", .unquoted "3"]) [] =
      .err (.scalarError ["0"]) ∧
    (sizeRead .anyDisallowed (.arr [.unquoted "any", .unquoted "3"]) []).isInvalidValueErr
      = false :=
  ⟨rfl, rfl⟩

/-- C5 (amended): a size component given as the literal `any` (quoted or
not, on either axis) makes "any disallowed" decoding — used by
`default_size` and `fixed_size` — fail with `ScalarError` at that
component's path. -/
theorem size_any_disallowed_scalar_error :
    (∀ rest p, sizeRead .anyDisallowed (.arr (.unquoted "any" :: rest)) p =
      .err (.scalarError (p ++ ["0"]))) ∧
    (∀ rest p, sizeRead .anyDisallowed (.arr (.quoted "any" :: rest)) p =
      .err (.scalarError (p ++ ["0"]))) ∧
    (∀ p, sizeRead .anyDisallowed (.arr [.unquoted "3", .unquoted "any"]) p =
      .err (.scalarError (p ++ ["1"]))) ∧
    (∀ p, WindowProperty.read_map_value "default_size"
      (.arr [.unquoted "any", .unquoted "3"]) p = .err (.scalarError (p ++ ["0"]))) ∧
    (∀ p, WindowProperty.read_map_value "fixed_size"
      (.arr [.unquoted "any", .unquoted "3"]) p = .err (.scalarError (p ++ ["0"]))) := by
  refine ⟨fun rest p => ?_, fun rest p => ?_, fun p => rfl, fun p => rfl, fun p => rfl⟩ <;>
    cases rest <;> rfl

/-- C6 (counterexample): a window object in which the `label` content field
precedes the structural `default_size` field does *not* always fail with
the `Custom` ordering error: when the structural field's own value is
malformed, its own error (`ScalarError` here) is reported instead. -/
theorem window_ordering_counterexample :
    Window.read_uiconf
      (.obj [("title", none, .quoted "t"), ("label", none, .quoted "x"),
        ("default_size", none, .arr [.unquoted "z", .unquoted "2"])] []) [] =
      .err (.scalarError ["default_size", "0"]) ∧
    (Window.read_uiconf
      (.obj [("title", none, .quoted "t"), ("label", none, .quoted "x"),
        ("default_size", none, .arr [.unquoted "z", .unquoted "2"])] []) []).isCustomErr
      = false := by
  have h : Window.read_uiconf
      (.obj [("title", none, .quoted "t"), ("label", none, .quoted "x"),
        ("default_size", none, .arr [.unquoted "z", .unquoted "2"])] []) [] =
      .err (.scalarError ["default_size", "0"]) := by
    simp [Window.read_uiconf, readObjectL, firstOp, windowFields,
      ContentWidget.read_map_value, Label.read_uiconf, Label.new, isScalar, scalarStr,
      RichText.read_uiconf, RichText.new, bindingRead, bindingRefRead, stripLeadingAt,
      stringRead, readStringD, WindowProperty.read_map_value, sizeRead, readArrayL,
      withIdx, f32Read, parseF64, parseUnsignedQ, WindowProperty.FIELDS,
      ContentWidget.FIELDS, DRes.map]
    rfl
  exact ⟨h, by rw [h]; rfl⟩

/-- C6 (amended): in both window and layout objects, once a content field
has been decoded, a later structural/property field whose own value decodes
successfully (and passes its duplicate check) fails the decode with the
`Custom` ordering error naming that field and the most recent content
field; a structural field whose own value is malformed reports that value's
own error instead (the decode still fails either way). -/
theorem ordering_violation_custom_error :
    (∀ v rest p props content lc t,
      RichText.read_uiconf v (p ++ ["title"]) = .ok t →
      windowFields (("title", v) :: rest) p none props content (some lc) =
        .err (.custom (windowOrderMsg "title" lc) (p ++ ["title"]))) ∧
    (∀ key v rest p title? props content lc wp,
      WindowProperty.FIELDS.contains key = true →
      WindowProperty.read_map_value key v (p ++ [key]) = .ok wp →
      windowFields ((key, v) :: rest) p title? props content (some lc) =
        .err (.custom (windowOrderMsg key lc) (p ++ [key]))) ∧
    (∀ key v rest p lay vis content lc st,
      Layout.propKeys.contains key = true →
      layoutSetProp key v (p ++ [key]) lay vis = .ok st →
      layoutFields ((key, v) :: rest) p lay vis content (some lc) =
        .err (.custom (layoutOrderMsg key lc) (p ++ [key]))) := by
  refine ⟨?_, ?_, ?_⟩
  · intro v rest p props content lc t h
    simp [windowFields, h]
  · intro key v rest p title? props content lc wp hk h
    have hk' : key ∈ WindowProperty.FIELDS := by
      simpa using hk
    have hne : key ≠ "title" := by
      intro e
      subst e
      exact absurd hk' (by decide)
    simp [windowFields, hne, hk', h]
  · intro key v rest p lay vis content lc st hk h
    have hk' : key ∈ Layout.propKeys := by
      simpa using hk
    simp [layoutFields, hk', h]

/-- C6 (witness): a well-formed `default_size` reached after a `label`
content field yields the ordering error naming both. -/
theorem ordering_violation_witness :
    windowFields [("default_size", .arr [.unquoted "1", .unquoted "2"])] [] none [] []
      (some "label") =
      .err (.custom (windowOrderMsg "default_size" "label") ["default_size"]) :=
  ordering_violation_custom_error.2.1 "default_size"
    (.arr [.unquoted "1", .unquoted "2"]) [] [] none [] [] "label"
    (.defaultSize ⟨.num 1, .num 2⟩) (by decide) rfl

/-- C7: anchor decoding is order-independent across axes — the pairing
logic is symmetric over all 25 alignment pairs, `{ left top }` and
`{ top left }` decode to the same anchor, and same-axis pairs such as
`{ left right }` and `{ top bottom }` fail with the custom error. -/
theorem anchor_order_independent :
    (∀ a b : Alignment, alignCombine a b = alignCombine b a) ∧
    (∀ p, Anchor.read_uiconf (.arr [.unquoted "left", .unquoted "top"]) p =
      Anchor.read_uiconf (.arr [.unquoted "top", .unquoted "left"]) p) ∧
    (∀ p, Anchor.read_uiconf (.arr [.unquoted "left", .unquoted "top"]) p =
      .ok ⟨⟨.min, .min⟩, Vec2.ZERO⟩) ∧
    (∀ p, Anchor.read_uiconf (.arr [.unquoted "left", .unquoted "right"]) p =
      .err (.custom "invalid alignment: `left right`" p)) ∧
    (∀ p, Anchor.read_uiconf (.arr [.unquoted "top", .unquoted "bottom"]) p =
      .err (.custom "invalid alignment: `top bottom`" p)) :=
  ⟨by decide, fun p => rfl, fun p => rfl, fun p => rfl, fun p => rfl⟩

/-- C8: round-trips for `Rounding` — the scalar `5` and the array
`{ 5 5 5 5 }` decode to the same four corners, and `"none"` (quoted or
bare) decodes to all corners zero. -/
theorem rounding_roundtrip :
    (∀ p, roundingRead (.unquoted "5") p =
      roundingRead (.arr [.unquoted "5", .unquoted "5", .unquoted "5", .unquoted "5"]) p) ∧
    (∀ p, roundingRead (.unquoted "5") p = .ok (ERounding.same (.num 5))) ∧
    (∀ p, roundingRead (.quoted "none") p = .ok ERounding.ZERO) ∧
    (∀ p, roundingRead (.unquoted "none") p = .ok ERounding.ZERO) :=
  ⟨fun p => rfl, fun p => rfl, fun p => rfl, fun p => rfl⟩

/-- The updated binding state keeps the name: only `warned` ever changes. -/
theorem resolveRef_snd_name (expected : String) (b : BindingRefM) (d : DynValue) :
    (resolveRef expected b d).2.name = b.name := by
  unfold resolveRef
  cases resolveRefCore expected b.name d <;> rfl

/-- Resolution against a struct holding a matching, correctly-typed field
succeeds, whatever the binding's flag state. -/
theorem resolveRef_strct_ok (expected : String) (b : BindingRefM) (tp : String)
    (fields : List (String × DynValue)) (v : DynValue)
    (hlk : lookupField fields b.name = some v) (htp : v.typePathOf = expected) :
    (resolveRef expected b (.strct tp fields)).1 = .ok v := by
  simp [resolveRef, resolveRefCore, hlk, htp]

/-- C9: `Ref` resolution never caches failure — the result of
`resolve_ref` depends only on the name, the expected type and the current
data object: after a failed resolution (which only raises the one-shot
`warned` flag), a call against a data object that now holds a matching
field of the right type succeeds; the flag never changes the result. -/
theorem ref_resolution_not_cached :
    (∀ expected name w d1 tp fields v,
      (∃ e, (resolveRef expected ⟨name, w⟩ d1).1 = .error e) →
      lookupField fields name = some v →
      v.typePathOf = expected →
      (resolveRef expected ((resolveRef expected ⟨name, w⟩ d1).2)
        (.strct tp fields)).1 = .ok v) ∧
    (∀ expected name w1 w2 d,
      (resolveRef expected ⟨name, w1⟩ d).1 = (resolveRef expected ⟨name, w2⟩ d).1) := by
  constructor
  · intro expected name w d1 tp fields v _hfail hlk htp
    apply resolveRef_strct_ok
    · rw [resolveRef_snd_name]
      exact hlk
    · exact htp
  · intro expected name w1 w2 d
    simp only [resolveRef]
    cases resolveRefCore expected name d <;> rfl

/-- C9 (witness): a failed lookup on an empty data object, then success
once the field exists with the right runtime type. -/
theorem ref_resolution_witness :
    (resolveRef "bool" ((resolveRef "bool" ⟨"flag", false⟩ (.strct "Data" [])).2)
      (.strct "Data" [("flag", .leaf "bool")])).1 = .ok (.leaf "bool") :=
  ref_resolution_not_cached.1 "bool" "flag" false (.strct "Data" []) "Data"
    [("flag", .leaf "bool")] (.leaf "bool") ⟨.keyNotFound, rfl⟩ rfl rfl

/-- C10: a quoted scalar never forms a reference — `Binding<T>` decoding of
any quoted scalar is exactly the literal fallback (so it can never produce
a `Ref`), and for `Binding<String>` the literal keeps its `@` prefix. -/
theorem quoted_scalar_never_ref :
    (∀ (α : Type) (rt : Node → Path → DRes α) (s : String) (p : Path),
      bindingRead rt (.quoted s) p = DRes.map .value (rt (.quoted s) p)) ∧
    (∀ (α : Type) (rt : Node → Path → DRes α) (s : String) (p : Path) (b : BindingRefM),
      bindingRead rt (.quoted s) p ≠ .ok (.ref b)) ∧
    bindingRead stringRead (.quoted "@flag") [] = .ok (.value "@flag") := by
  refine ⟨fun α rt s p => rfl, fun α rt s p b => ?_, rfl⟩
  show DRes.map Binding.value (rt (.quoted s) p) ≠ .ok (.ref b)
  cases rt (.quoted s) p <;> simp [DRes.map]

end Uiconf
